import Mathlib

/-
  Verification development for the mynd point-cloud registration core
  (registration pipeline and batch orchestration engine).

  The registration module itself (mynd.registration, mynd.collections,
  mynd.geometry) is not present in the repository snapshot; only its callers
  (the regdev notebook), configuration files and scripts are.  The definitions
  below are therefore modelled from the specification, with machine reals
  replaced by rational numbers and Python dictionaries replaced by
  insertion-ordered association lists.
-/

namespace Mynd

/-- Modelled from the spec: GroupID is the identity of a point-cloud-bearing
unit, a numeric key plus a human-readable label.  The class itself
(mynd.collections.GroupID) is missing from the snapshot. -/
structure GroupID where
  key : Nat
  label : String
deriving Repr, DecidableEq

/-- Modelled from the spec: GroupID is an immutable value type with equality
by key (the label does not participate). -/
def GroupID.eq (a b : GroupID) : Bool :=
  a.key == b.key

/-- Ordering of GroupIDs by their numeric key, used for the stable ordering of
one-way pairing output. -/
abbrev GroupID.keyLE (a b : GroupID) : Prop :=
  a.key ≤ b.key

instance : IsTotal GroupID GroupID.keyLE :=
  ⟨fun a b => Nat.le_total a.key b.key⟩

instance : IsTrans GroupID GroupID.keyLE :=
  ⟨fun _ _ _ hab hbc => Nat.le_trans hab hbc⟩

/-- A 3D point with rational coordinates (the embedding replaces machine
floats by rationals). -/
abbrev Point := ℚ × ℚ × ℚ

/-- Modelled from the spec: a PointCloud is an ordered sequence of 3D points.
The optional parallel colour and normal sequences are not needed by any claim
about point counts or data flow and are omitted from the embedding. -/
structure PointCloud where
  points : List Point
deriving Repr, DecidableEq

/-- Modelled from the spec: a RegistrationIndex is an ordered pair
(target, source) of GroupIDs denoting "align source onto target". -/
structure RegistrationIndex where
  target : GroupID
  source : GroupID
deriving Repr, DecidableEq

/-- Modelled from the spec: the one-way pairing strategy.  Given a designated
reference GroupID and the collection of GroupIDs, produce one
RegistrationIndex (reference, other) per non-reference GroupID, in a stable
order ascending by key.  Membership of the reference is decided by the
GroupID value equality (by key). -/
def generate_indices_one_way (reference : GroupID) (keys : List GroupID) :
    List RegistrationIndex :=
  let nonref := keys.filter fun k => !(GroupID.eq k reference)
  (nonref.insertionSort GroupID.keyLE).map fun k => ⟨reference, k⟩

/-- Modelled from the spec: the cascade pairing strategy.  Given the full
ordered collection of GroupIDs, produce the N-1 successive pairs (i, i+1)
linking each element to its immediate successor. -/
def generate_indices_cascade (keys : List GroupID) : List RegistrationIndex :=
  (keys.zip keys.tail).map fun p => ⟨p.1, p.2⟩

/-- A rigid-body or similarity transformation, embedded as a 4x4 homogeneous
matrix of rationals (a function on row and column indices). -/
abbrev Transform := Fin 4 → Fin 4 → ℚ

/-- The identity transformation. -/
def identityTransform : Transform :=
  fun i j => if i = j then 1 else 0

/-- Modelled from the spec: the result of one aligner or refiner invocation,
consisting of a transformation, a fitness value, an inlier RMSE and a
correspondence count. -/
structure RegistrationResult where
  transformation : Transform
  fitness : ℚ
  inlier_rmse : ℚ
  correspondence_count : Nat
deriving DecidableEq

/-- Modelled from the spec: a PointCloudLoader is a deferred, repeatable
accessor that materializes a PointCloud on demand, returning either the cloud
or a recoverable error (the Ok/Err Result of the Python source). -/
abbrev PointCloudLoader := Unit → Except String PointCloud

/-- Modelled from the spec: a RegistrationBatch owns a mapping from GroupID to
PointCloudLoader.  The Python dictionary is embedded as an insertion-ordered
association list. -/
structure RegistrationBatch where
  loaders : List (GroupID × PointCloudLoader)

/-- Modelled from the spec: the set of known GroupIDs of a batch, in the
insertion order of the underlying mapping (Python dictionaries preserve
insertion order). -/
def RegistrationBatch.keys (b : RegistrationBatch) : List GroupID :=
  b.loaders.map Prod.fst

/-- Modelled from the spec: lookup of a loader by GroupID.  Dictionary lookup
uses the GroupID value equality (by key). -/
def RegistrationBatch.get (b : RegistrationBatch) (g : GroupID) :
    Option PointCloudLoader :=
  (b.loaders.find? fun kv => GroupID.eq kv.1 g).map Prod.snd

/-- An aligner stage: computes a RegistrationResult from a target and a source
point cloud with no prior transform (preprocessing is part of the stage). -/
abbrev AlignerStage := PointCloud → PointCloud → RegistrationResult

/-- A refiner stage: computes a RegistrationResult from a target and a source
point cloud and an initial transform (preprocessing is part of the stage). -/
abbrev RefinerStage := PointCloud → PointCloud → Transform → RegistrationResult

/-- Modelled from the spec: a RegistrationPipeline is an ordered chain of
exactly one coarse aligner stage followed by zero or more refiner stages. -/
structure RegistrationPipeline where
  aligner : AlignerStage
  refiners : List RefinerStage

/-- Modelled from the spec: pipeline construction from decoded stage
configurations — one aligner stage followed by the listed refiner stages. -/
def build_registration_pipeline (aligner : AlignerStage)
    (refiners : List RefinerStage) : RegistrationPipeline :=
  ⟨aligner, refiners⟩

/-- Modelled from the spec: execute all pipeline stages in order against one
pair of materialized point clouds, threading the transform estimate forward
(each stage's output transformation is the next stage's initial transform),
and return the final stage's RegistrationResult. -/
def apply_registration_pipeline (pl : RegistrationPipeline)
    (target source : PointCloud) : RegistrationResult :=
  pl.refiners.foldl
    (fun acc ref => ref target source acc.transformation)
    (pl.aligner target source)

/-- The sequence of per-stage results produced while threading an initial
result through a list of refiner stages: element 0 is the seed (the aligner
result) and element i+1 is stage i applied with element i's transformation. -/
def registration_stage_results (target source : PointCloud)
    (seed : RegistrationResult) : List RefinerStage → List RegistrationResult
  | [] => [seed]
  | ref :: rest =>
      seed :: registration_stage_results target source
        (ref target source seed.transformation) rest

/-- Modelled from the spec: the outcome recorded for one pair — either the
final stage's RegistrationResult or a failure kind (LoadFailure) carrying the
loader error. -/
inductive RegistrationOutcome where
  | success (result : RegistrationResult)
  | loadFailure (message : String)
deriving DecidableEq

/-- Modelled from the spec: PairResult is the output unit of batch execution,
carrying the target and source GroupIDs and the pair's outcome. -/
structure PairResult where
  target : GroupID
  source : GroupID
  result : RegistrationOutcome
deriving DecidableEq

/-- Modelled from the spec: execute the pipeline for one RegistrationIndex.
Loader errors are captured into a LoadFailure outcome for that pair instead
of escaping (the total function embeds the no-exception guarantee). -/
def register_pair (b : RegistrationBatch) (pl : RegistrationPipeline)
    (idx : RegistrationIndex) : RegistrationOutcome :=
  match b.get idx.target, b.get idx.source with
  | some tload, some sload =>
      match tload (), sload () with
      | Except.ok tcloud, Except.ok scloud =>
          RegistrationOutcome.success (apply_registration_pipeline pl tcloud scloud)
      | Except.error e, _ => RegistrationOutcome.loadFailure e
      | _, Except.error e => RegistrationOutcome.loadFailure e
  | none, _ => RegistrationOutcome.loadFailure "missing loader for target"
  | _, none => RegistrationOutcome.loadFailure "missing loader for source"

/-- Modelled from the spec: batch execution entry point.  Executes every
pair's pipeline and returns the ordered list of PairResult, one per input
index, in the caller-supplied index order.  The progress callback is a pure
side-channel that does not influence the collected results and is omitted
from the embedding. -/
def register_batch (b : RegistrationBatch) (pl : RegistrationPipeline)
    (indices : List RegistrationIndex) : List PairResult :=
  indices.map fun idx => ⟨idx.target, idx.source, register_pair b pl idx⟩

/-- The voxel-grid cell index of a point at a given spacing: the floor of each
coordinate divided by the spacing. -/
def voxelIndex (spacing : ℚ) (p : Point) : ℤ × ℤ × ℤ :=
  (⌊p.1 / spacing⌋, ⌊p.2.1 / spacing⌋, ⌊p.2.2 / spacing⌋)

/-- The centroid of a list of points (componentwise average). -/
def centroid (l : List Point) : Point :=
  ((l.map Prod.fst).sum / l.length,
   (l.map fun p => p.2.1).sum / l.length,
   (l.map fun p => p.2.2).sum / l.length)

/-- Modelled from the spec: the downsample preprocessing stage performs
voxel-grid reduction at the given spacing — all points falling in the same
voxel cell collapse to one representative, the voxel centroid.  The actual
reduction runs in the external Open3D backend and is absent from the
snapshot; this embedding keeps one centroid per occupied voxel, occupied
voxels enumerated in first-occurrence order. -/
def downsample (spacing : ℚ) (cloud : PointCloud) : PointCloud :=
  let keys := (cloud.points.map (voxelIndex spacing)).dedup
  ⟨keys.map fun k =>
    centroid (cloud.points.filter fun p => decide (voxelIndex spacing p = k))⟩

/-- The RegistrationResult signalling "no alignment found": identity
transformation, zero fitness, zero RMSE, zero correspondences. -/
def empty_registration_result : RegistrationResult :=
  ⟨identityTransform, 0, 0, 0⟩

/-- Modelled from the spec: the feature-based RANSAC coarse aligner.  The
feature computation, correspondence search and RANSAC sampling loop run in
the external Open3D backend and are abstracted as the findCorrespondences and
ransacSearch parameters; the spec fixes the failure behaviour: fewer valid
correspondences than sample_count yields the empty result (identity
transform, fitness 0) instead of raising. -/
def feature_ransac_align
    (findCorrespondences : PointCloud → PointCloud → List (Nat × Nat))
    (ransacSearch : List (Nat × Nat) → RegistrationResult)
    (sample_count : Nat) (target source : PointCloud) : RegistrationResult :=
  let corrs := findCorrespondences target source
  if corrs.length < sample_count then empty_registration_result
  else ransacSearch corrs

/-- Boolean test for the failure-kind outcome of a pair. -/
def RegistrationOutcome.isLoadFailure : RegistrationOutcome → Bool
  | RegistrationOutcome.loadFailure _ => true
  | RegistrationOutcome.success _ => false

/-
  Concrete fixtures used to evaluate the theorems on closed inputs: a batch of
  six survey groups in which the loader of group key 3 fails, a two-refiner
  pipeline, and the one-way index list against reference group key 0.
-/

def gidA : GroupID := ⟨0, "site_a"⟩

def gidB : GroupID := ⟨1, "site_b"⟩

def gidC : GroupID := ⟨2, "site_c"⟩

def gidD : GroupID := ⟨3, "site_d"⟩

def gidE : GroupID := ⟨4, "site_e"⟩

def gidF : GroupID := ⟨5, "site_f"⟩

def cloudA : PointCloud := ⟨[(0, 0, 0), (1, 0, 0)]⟩

def okLoader : PointCloudLoader := fun _ => Except.ok cloudA

def failLoader : PointCloudLoader := fun _ => Except.error "io error"

def demoBatch : RegistrationBatch :=
  ⟨[(gidA, okLoader), (gidB, okLoader), (gidC, okLoader),
    (gidD, failLoader), (gidE, okLoader), (gidF, okLoader)]⟩

def demoAligner : AlignerStage :=
  fun _ _ => ⟨identityTransform, 1 / 2, 1 / 100, 100⟩

def demoRefiner : RefinerStage :=
  fun _ _ tr => ⟨fun i j => tr i j + 1, 9 / 10, 1 / 200, 200⟩

def demoPipeline : RegistrationPipeline :=
  build_registration_pipeline demoAligner [demoRefiner, demoRefiner]

def demoIndices : List RegistrationIndex :=
  generate_indices_one_way gidA demoBatch.keys

def emptyCorrespondences : PointCloud → PointCloud → List (Nat × Nat) :=
  fun _ _ => []

def demoRansacSearch : List (Nat × Nat) → RegistrationResult :=
  fun _ => ⟨identityTransform, 1, 0, 7⟩

theorem map_source_generate_indices_one_way (reference : GroupID)
    (keys : List GroupID) :
    (generate_indices_one_way reference keys).map RegistrationIndex.source
      = (keys.filter fun k => !(GroupID.eq k reference)).insertionSort
          GroupID.keyLE := by
  simp only [generate_indices_one_way, List.map_map]
  rw [show (RegistrationIndex.source ∘ fun k => (⟨reference, k⟩ : RegistrationIndex))
      = id from rfl]
  exact List.map_id _

/-- C4: for every designated reference GroupID and every input collection of
GroupIDs, generate_indices_one_way returns exactly one RegistrationIndex per
non-reference GroupID (its sources are a permutation of the non-reference
ids), each index having target equal to the reference and source equal to
that non-reference GroupID, in a stable order ascending by key. -/
theorem generate_indices_one_way_properties (reference : GroupID)
    (keys : List GroupID) :
    (generate_indices_one_way reference keys).length
        = (keys.filter fun k => !(GroupID.eq k reference)).length
    ∧ (∀ idx ∈ generate_indices_one_way reference keys, idx.target = reference)
    ∧ ((generate_indices_one_way reference keys).map
          RegistrationIndex.source).Perm
        (keys.filter fun k => !(GroupID.eq k reference))
    ∧ List.Sorted GroupID.keyLE
        ((generate_indices_one_way reference keys).map
          RegistrationIndex.source) := by
  refine ⟨?_, ?_, ?_, ?_⟩
  · simp [generate_indices_one_way,
      (List.perm_insertionSort GroupID.keyLE _).length_eq]
  · intro idx hidx
    simp only [generate_indices_one_way, List.mem_map] at hidx
    obtain ⟨k, _, rfl⟩ := hidx
    rfl
  · rw [map_source_generate_indices_one_way]
    exact List.perm_insertionSort GroupID.keyLE _
  · rw [map_source_generate_indices_one_way]
    exact List.sorted_insertionSort GroupID.keyLE _

/-- First closed evaluation of the one-way pairing properties: against the
demo batch with reference group key 0, the first produced index targets the
reference. -/
theorem generate_indices_one_way_properties_witness :
    (demoIndices.get ⟨0, by decide⟩).target = gidA :=
  (generate_indices_one_way_properties gidA demoBatch.keys).2.1
    (demoIndices.get ⟨0, by decide⟩) (by decide)

theorem generate_indices_cascade_length (keys : List GroupID) :
    (generate_indices_cascade keys).length = keys.length - 1 := by
  simp [generate_indices_cascade, List.length_zip]

theorem generate_indices_cascade_get (keys : List GroupID) (i : Nat)
    (h : i + 1 < keys.length) :
    (generate_indices_cascade keys).get
        ⟨i, by rw [generate_indices_cascade_length]; omega⟩
      = ⟨keys.get ⟨i, by omega⟩, keys.get ⟨i + 1, h⟩⟩ := by
  simp [generate_indices_cascade, List.get_eq_getElem, List.getElem_zip,
    List.getElem_tail]

/-- C5: for every ordered collection of N GroupIDs, generate_indices_cascade
returns exactly N-1 RegistrationIndex pairs, the i-th pair linking element i
and element i+1 of the input order, and, when the GroupIDs are pairwise
distinct by key, no returned index has target equal to source. -/
theorem generate_indices_cascade_properties (keys : List GroupID) :
    (generate_indices_cascade keys).length = keys.length - 1
    ∧ (∀ i (h : i + 1 < keys.length),
        (generate_indices_cascade keys).get
            ⟨i, by rw [generate_indices_cascade_length]; omega⟩
          = ⟨keys.get ⟨i, by omega⟩, keys.get ⟨i + 1, h⟩⟩)
    ∧ (List.Pairwise (fun a b => a.key ≠ b.key) keys →
        ∀ i (h : i < (generate_indices_cascade keys).length),
          GroupID.eq ((generate_indices_cascade keys).get ⟨i, h⟩).target
            ((generate_indices_cascade keys).get ⟨i, h⟩).source = false) := by
  refine ⟨generate_indices_cascade_length keys,
    fun i h => generate_indices_cascade_get keys i h, ?_⟩
  intro hpw i h
  have hlen : i + 1 < keys.length := by
    have := generate_indices_cascade_length keys
    omega
  have hget := generate_indices_cascade_get keys i hlen
  have hkey : (keys.get ⟨i, by omega⟩).key ≠ (keys.get ⟨i + 1, hlen⟩).key := by
    rw [List.pairwise_iff_getElem] at hpw
    simpa [List.get_eq_getElem] using
      hpw i (i + 1) (by omega) hlen (by omega)
  rw [hget]
  simpa [GroupID.eq] using hkey

/-- Closed evaluation of the cascade pairing properties: on the demo batch
keys the first cascade index links two distinct groups. -/
theorem generate_indices_cascade_properties_witness :
    GroupID.eq
        ((generate_indices_cascade demoBatch.keys).get ⟨0, by decide⟩).target
        ((generate_indices_cascade demoBatch.keys).get ⟨0, by decide⟩).source
      = false :=
  (generate_indices_cascade_properties demoBatch.keys).2.2 (by decide) 0
    (by decide)

/-- C9: GroupID equality is determined by the numeric key alone — the label
does not participate — and this equality governs loader-map lookup, so two
independently constructed GroupIDs with the same key are interchangeable as
dictionary keys. -/
theorem groupid_equality_by_key (a b : GroupID) :
    (GroupID.eq a b = true ↔ a.key = b.key)
    ∧ (∀ la lb : String, GroupID.eq ⟨a.key, la⟩ ⟨a.key, lb⟩ = true)
    ∧ (GroupID.eq a b = true →
        ∀ loaders : List (GroupID × PointCloudLoader),
          RegistrationBatch.get ⟨loaders⟩ a = RegistrationBatch.get ⟨loaders⟩ b) := by
  refine ⟨?_, ?_, ?_⟩
  · simp [GroupID.eq]
  · intro la lb
    simp [GroupID.eq]
  · intro hab loaders
    have hk : a.key = b.key := by simpa [GroupID.eq] using hab
    have hpred : (fun kv : GroupID × PointCloudLoader => GroupID.eq kv.1 a)
        = fun kv => GroupID.eq kv.1 b := by
      funext kv
      simp [GroupID.eq, hk]
    simp only [RegistrationBatch.get, hpred]

/-- Closed evaluation of GroupID key equality: two GroupIDs sharing key 3 but
with different labels are equal and yield the same loader lookup in the demo
batch. -/
theorem groupid_equality_by_key_witness :
    GroupID.eq ⟨3, "site_d"⟩ ⟨3, "other_label"⟩ = true
    ∧ RegistrationBatch.get ⟨demoBatch.loaders⟩ ⟨3, "site_d"⟩
        = RegistrationBatch.get ⟨demoBatch.loaders⟩ ⟨3, "other_label"⟩ := by
  have h := groupid_equality_by_key (⟨3, "site_d"⟩ : GroupID) ⟨3, "other_label"⟩
  exact ⟨h.1.mpr rfl, h.2.2 (h.1.mpr rfl) demoBatch.loaders⟩

/-- C10: a RegistrationBatch built from a loader mapping exposes exactly the
mapping's keys in the mapping's insertion order, so the cascade strategy
applied to the batch keys pairs consecutive entries of the loader mapping
supplied at construction. -/
theorem registration_batch_keys_insertion_order
    (loaders : List (GroupID × PointCloudLoader)) :
    (RegistrationBatch.mk loaders).keys = loaders.map Prod.fst
    ∧ (∀ i (h : i + 1 < loaders.length),
        (generate_indices_cascade (RegistrationBatch.mk loaders).keys).get
            ⟨i, by
              rw [generate_indices_cascade_length]
              simp only [RegistrationBatch.keys, List.length_map]
              omega⟩
          = ⟨(loaders.get ⟨i, by omega⟩).1, (loaders.get ⟨i + 1, h⟩).1⟩) := by
  refine ⟨rfl, ?_⟩
  intro i h
  have hk : (RegistrationBatch.mk loaders).keys.length = loaders.length := by
    simp [RegistrationBatch.keys]
  have hget := generate_indices_cascade_get (RegistrationBatch.mk loaders).keys
    i (by omega)
  rw [hget]
  simp [RegistrationBatch.keys, List.get_eq_getElem, List.getElem_map]

/-- Closed evaluation of the batch key order: the first cascade index over
the demo batch keys links the first two loader-map entries. -/
theorem registration_batch_keys_insertion_order_witness :
    (generate_indices_cascade (RegistrationBatch.mk demoBatch.loaders).keys).get
        ⟨0, by decide⟩
      = ⟨(demoBatch.loaders.get ⟨0, by decide⟩).1,
         (demoBatch.loaders.get ⟨1, by decide⟩).1⟩ :=
  (registration_batch_keys_insertion_order demoBatch.loaders).2 0 (by decide)

theorem register_batch_length (b : RegistrationBatch)
    (pl : RegistrationPipeline) (indices : List RegistrationIndex) :
    (register_batch b pl indices).length = indices.length := by
  simp [register_batch]

theorem register_batch_get_entry (b : RegistrationBatch)
    (pl : RegistrationPipeline) (indices : List RegistrationIndex) (i : Nat)
    (h : i < indices.length) :
    (register_batch b pl indices).get
        ⟨i, by rw [register_batch_length]; exact h⟩
      = ⟨(indices.get ⟨i, h⟩).target, (indices.get ⟨i, h⟩).source,
         register_pair b pl (indices.get ⟨i, h⟩)⟩ := by
  simp [register_batch, List.get_eq_getElem, List.getElem_map]

/-- C1: for every list of RegistrationIndex pairs supplied to register_batch,
the returned sequence contains exactly one PairResult per input index, and
the i-th PairResult carries the same (target, source) GroupIDs as the i-th
input index — the caller-supplied index order is preserved in the returned
sequence. -/
theorem register_batch_preserves_index_order (b : RegistrationBatch)
    (pl : RegistrationPipeline) (indices : List RegistrationIndex) :
    (register_batch b pl indices).length = indices.length
    ∧ (∀ i (h : i < indices.length),
        ((register_batch b pl indices).get
            ⟨i, by rw [register_batch_length]; exact h⟩).target
          = (indices.get ⟨i, h⟩).target
        ∧ ((register_batch b pl indices).get
            ⟨i, by rw [register_batch_length]; exact h⟩).source
          = (indices.get ⟨i, h⟩).source) := by
  refine ⟨register_batch_length b pl indices, ?_⟩
  intro i h
  rw [register_batch_get_entry b pl indices i h]
  exact ⟨rfl, rfl⟩

/-- Closed evaluation of batch order preservation: entry 1 of the demo batch
run carries the target and source of input index 1. -/
theorem register_batch_preserves_index_order_witness :
    ((register_batch demoBatch demoPipeline demoIndices).get
        ⟨1, by rw [register_batch_length]; decide⟩).target
      = (demoIndices.get ⟨1, by decide⟩).target :=
  ((register_batch_preserves_index_order demoBatch demoPipeline demoIndices).2
    1 (by decide)).1

theorem register_pair_load_failure_target (b : RegistrationBatch)
    (pl : RegistrationPipeline) (idx : RegistrationIndex)
    (tload : PointCloudLoader) (e : String)
    (ht : b.get idx.target = some tload) (he : tload () = Except.error e) :
    (register_pair b pl idx).isLoadFailure = true := by
  rcases hs : b.get idx.source with _ | sload
  · simp [register_pair, ht, hs, RegistrationOutcome.isLoadFailure]
  · rcases hsv : sload () with es | sc
    all_goals
      simp [register_pair, ht, hs, he, hsv, RegistrationOutcome.isLoadFailure]

theorem register_pair_load_failure_source (b : RegistrationBatch)
    (pl : RegistrationPipeline) (idx : RegistrationIndex)
    (sload : PointCloudLoader) (e : String)
    (hs : b.get idx.source = some sload) (he : sload () = Except.error e) :
    (register_pair b pl idx).isLoadFailure = true := by
  rcases ht : b.get idx.target with _ | tload
  · simp [register_pair, ht, hs, RegistrationOutcome.isLoadFailure]
  · rcases htv : tload () with et | tc
    all_goals
      simp [register_pair, ht, hs, he, htv, RegistrationOutcome.isLoadFailure]

theorem register_pair_success (b : RegistrationBatch)
    (pl : RegistrationPipeline) (idx : RegistrationIndex)
    (tload sload : PointCloudLoader) (tc sc : PointCloud)
    (ht : b.get idx.target = some tload) (htv : tload () = Except.ok tc)
    (hs : b.get idx.source = some sload) (hsv : sload () = Except.ok sc) :
    register_pair b pl idx
      = RegistrationOutcome.success (apply_registration_pipeline pl tc sc) := by
  simp [register_pair, ht, hs, htv, hsv]

/-- C2: for every batch execution in which a pair's loader fails at runtime,
register_batch still returns one result per input index in original index
order, the failing pair's entry is recorded as a LoadFailure outcome, and
every pair whose loaders succeed is still executed through the pipeline; the
batch function is total, so no per-pair exception crosses the batch
boundary. -/
theorem register_batch_isolates_load_failures (b : RegistrationBatch)
    (pl : RegistrationPipeline) (indices : List RegistrationIndex) :
    (register_batch b pl indices).length = indices.length
    ∧ (∀ i (h : i < indices.length),
        ((register_batch b pl indices).get
            ⟨i, by rw [register_batch_length]; exact h⟩).target
          = (indices.get ⟨i, h⟩).target
        ∧ ((register_batch b pl indices).get
            ⟨i, by rw [register_batch_length]; exact h⟩).source
          = (indices.get ⟨i, h⟩).source)
    ∧ (∀ i (h : i < indices.length) (tload : PointCloudLoader) (e : String),
        b.get (indices.get ⟨i, h⟩).target = some tload →
        tload () = Except.error e →
        (((register_batch b pl indices).get
            ⟨i, by rw [register_batch_length]; exact h⟩).result).isLoadFailure
          = true)
    ∧ (∀ i (h : i < indices.length) (sload : PointCloudLoader) (e : String),
        b.get (indices.get ⟨i, h⟩).source = some sload →
        sload () = Except.error e →
        (((register_batch b pl indices).get
            ⟨i, by rw [register_batch_length]; exact h⟩).result).isLoadFailure
          = true)
    ∧ (∀ i (h : i < indices.length) (tload sload : PointCloudLoader)
          (tc sc : PointCloud),
        b.get (indices.get ⟨i, h⟩).target = some tload →
        tload () = Except.ok tc →
        b.get (indices.get ⟨i, h⟩).source = some sload →
        sload () = Except.ok sc →
        ((register_batch b pl indices).get
            ⟨i, by rw [register_batch_length]; exact h⟩).result
          = RegistrationOutcome.success
              (apply_registration_pipeline pl tc sc)) := by
  refine ⟨register_batch_length b pl indices, ?_, ?_, ?_, ?_⟩
  · intro i h
    rw [register_batch_get_entry b pl indices i h]
    exact ⟨rfl, rfl⟩
  · intro i h tload e ht he
    rw [register_batch_get_entry b pl indices i h]
    exact register_pair_load_failure_target b pl _ tload e ht he
  · intro i h sload e hs he
    rw [register_batch_get_entry b pl indices i h]
    exact register_pair_load_failure_source b pl _ sload e hs he
  · intro i h tload sload tc sc ht htv hs hsv
    rw [register_batch_get_entry b pl indices i h]
    exact register_pair_success b pl _ tload sload tc sc ht htv hs hsv

/-- Closed evaluation of partial-failure isolation: in the demo batch run the
pair whose source loader fails (index 2, group key 3) is recorded as a
LoadFailure while the preceding pair is still executed successfully. -/
theorem register_batch_isolates_load_failures_witness :
    (((register_batch demoBatch demoPipeline demoIndices).get
        ⟨2, by rw [register_batch_length]; decide⟩).result).isLoadFailure = true
    ∧ ((register_batch demoBatch demoPipeline demoIndices).get
        ⟨1, by rw [register_batch_length]; decide⟩).result
      = RegistrationOutcome.success
          (apply_registration_pipeline demoPipeline cloudA cloudA) := by
  have h := register_batch_isolates_load_failures demoBatch demoPipeline demoIndices
  exact ⟨h.2.2.2.1 2 (by decide) failLoader "io error" rfl rfl,
         h.2.2.2.2 1 (by decide) okLoader okLoader cloudA cloudA rfl rfl rfl rfl⟩

theorem registration_stage_results_length (target source : PointCloud)
    (seed : RegistrationResult) (refs : List RefinerStage) :
    (registration_stage_results target source seed refs).length
      = refs.length + 1 := by
  induction refs generalizing seed with
  | nil => rfl
  | cons ref rest ih => simp [registration_stage_results, ih]

theorem registration_stage_results_ne_nil (target source : PointCloud)
    (seed : RegistrationResult) (refs : List RefinerStage) :
    registration_stage_results target source seed refs ≠ [] := by
  have := registration_stage_results_length target source seed refs
  intro hnil
  rw [hnil] at this
  simp at this

theorem registration_stage_results_get_zero (target source : PointCloud)
    (seed : RegistrationResult) (refs : List RefinerStage) :
    (registration_stage_results target source seed refs).get
        ⟨0, by rw [registration_stage_results_length]; omega⟩ = seed := by
  cases refs <;> rfl

theorem registration_stage_results_get_succ (target source : PointCloud)
    (seed : RegistrationResult) (refs : List RefinerStage) (i : Nat)
    (h : i < refs.length) :
    (registration_stage_results target source seed refs).get
        ⟨i + 1, by rw [registration_stage_results_length]; omega⟩
      = (refs.get ⟨i, h⟩) target source
          ((registration_stage_results target source seed refs).get
            ⟨i, by rw [registration_stage_results_length]; omega⟩).transformation := by
  induction refs generalizing seed i with
  | nil => exact absurd h (by simp)
  | cons ref rest ih =>
    cases i with
    | zero =>
      show (registration_stage_results target source
          (ref target source seed.transformation) rest).get ⟨0, _⟩ = _
      rw [registration_stage_results_get_zero]
      rfl
    | succ j =>
      have hj : j < rest.length := by simpa using h
      show (registration_stage_results target source
          (ref target source seed.transformation) rest).get ⟨j + 1, _⟩ = _
      rw [ih (ref target source seed.transformation) j hj]
      rfl

theorem apply_registration_pipeline_eq_getLast_aux (target source : PointCloud)
    (seed : RegistrationResult) (refs : List RefinerStage) :
    refs.foldl (fun acc ref => ref target source acc.transformation) seed
      = (registration_stage_results target source seed refs).getLast
          (registration_stage_results_ne_nil target source seed refs) := by
  induction refs generalizing seed with
  | nil => rfl
  | cons ref rest ih =>
    show rest.foldl _ (ref target source seed.transformation) = _
    rw [ih (ref target source seed.transformation)]
    exact (List.getLast_cons
      (registration_stage_results_ne_nil target source
        (ref target source seed.transformation) rest)).symm

/-- C3: executing a pipeline of one aligner stage followed by N refiner
stages on one (target, source) pair runs the stages in order: the per-stage
result sequence starts with the aligner result, each stage i consumes the
transformation produced by the previous stage, and the pipeline's outcome is
the final stage's RegistrationResult. -/
theorem registration_pipeline_threads_transforms (pl : RegistrationPipeline)
    (target source : PointCloud) :
    (registration_stage_results target source (pl.aligner target source)
        pl.refiners).length = pl.refiners.length + 1
    ∧ (registration_stage_results target source (pl.aligner target source)
        pl.refiners).get ⟨0, by rw [registration_stage_results_length]; omega⟩
      = pl.aligner target source
    ∧ (∀ i (h : i < pl.refiners.length),
        (registration_stage_results target source (pl.aligner target source)
            pl.refiners).get
          ⟨i + 1, by rw [registration_stage_results_length]; omega⟩
          = (pl.refiners.get ⟨i, h⟩) target source
              ((registration_stage_results target source
                  (pl.aligner target source) pl.refiners).get
                ⟨i, by rw [registration_stage_results_length]; omega⟩).transformation)
    ∧ apply_registration_pipeline pl target source
        = (registration_stage_results target source (pl.aligner target source)
            pl.refiners).getLast
          (registration_stage_results_ne_nil target source
            (pl.aligner target source) pl.refiners) :=
  ⟨registration_stage_results_length target source _ pl.refiners,
   registration_stage_results_get_zero target source _ pl.refiners,
   fun i h => registration_stage_results_get_succ target source _ pl.refiners i h,
   apply_registration_pipeline_eq_getLast_aux target source _ pl.refiners⟩

/-- Closed evaluation of stage threading: in the demo pipeline the result of
stage 1 is the first refiner applied with the aligner's output
transformation. -/
theorem registration_pipeline_threads_transforms_witness :
    (registration_stage_results cloudA cloudA
        (demoPipeline.aligner cloudA cloudA) demoPipeline.refiners).get
      ⟨1, by rw [registration_stage_results_length]; decide⟩
      = (demoPipeline.refiners.get ⟨0, by decide⟩) cloudA cloudA
          ((registration_stage_results cloudA cloudA
              (demoPipeline.aligner cloudA cloudA) demoPipeline.refiners).get
            ⟨0, by rw [registration_stage_results_length]; decide⟩).transformation :=
  (registration_pipeline_threads_transforms demoPipeline cloudA cloudA).2.2.1 0
    (by decide)

/-- C6: whenever the feature-based RANSAC coarse aligner finds fewer than
sample_count valid correspondences, it returns a RegistrationResult whose
transformation is the identity and whose fitness is 0; as a total function it
raises no exception. -/
theorem feature_ransac_align_degenerate_result
    (findCorrespondences : PointCloud → PointCloud → List (Nat × Nat))
    (ransacSearch : List (Nat × Nat) → RegistrationResult)
    (sample_count : Nat) (target source : PointCloud)
    (h : (findCorrespondences target source).length < sample_count) :
    feature_ransac_align findCorrespondences ransacSearch sample_count
        target source = empty_registration_result
    ∧ (feature_ransac_align findCorrespondences ransacSearch sample_count
        target source).transformation = identityTransform
    ∧ (feature_ransac_align findCorrespondences ransacSearch sample_count
        target source).fitness = 0 := by
  refine ⟨?_, ?_, ?_⟩
  all_goals simp [feature_ransac_align, h, empty_registration_result]

/-- Closed evaluation of the degenerate-alignment contract: with no
correspondences at all and a sample count of 3 the aligner yields the empty
result. -/
theorem feature_ransac_align_degenerate_result_witness :
    feature_ransac_align emptyCorrespondences demoRansacSearch 3 cloudA cloudA
      = empty_registration_result :=
  (feature_ransac_align_degenerate_result emptyCorrespondences demoRansacSearch
    3 cloudA cloudA (by decide)).1

theorem sum_map_div (l : List ℚ) (s : ℚ) :
    (l.map fun x => x / s).sum = l.sum / s := by
  induction l with
  | nil => simp
  | cons x xs ih => simp [ih, add_div]

theorem length_mul_le_sum (l : List ℚ) (a : ℚ) (h : ∀ x ∈ l, a ≤ x) :
    (l.length : ℚ) * a ≤ l.sum := by
  induction l with
  | nil => simp
  | cons x xs ih =>
    have hx : a ≤ x := h x (by simp)
    have hxs : (xs.length : ℚ) * a ≤ xs.sum := ih fun y hy => h y (by simp [hy])
    have hexpand : (((x :: xs).length : ℚ)) * a = (xs.length : ℚ) * a + a := by
      push_cast [List.length_cons]
      ring
    rw [hexpand, List.sum_cons]
    linarith

theorem sum_lt_length_mul (l : List ℚ) (b : ℚ) (hne : l ≠ [])
    (h : ∀ x ∈ l, x < b) : l.sum < (l.length : ℚ) * b := by
  induction l with
  | nil => exact absurd rfl hne
  | cons x xs ih =>
    have hx : x < b := h x (by simp)
    have hexpand : (((x :: xs).length : ℚ)) * b = (xs.length : ℚ) * b + b := by
      push_cast [List.length_cons]
      ring
    rw [List.sum_cons, hexpand]
    cases xs with
    | nil => simpa using hx
    | cons y ys =>
      have hxs : (y :: ys).sum < (((y :: ys).length : ℚ)) * b :=
        ih (by simp) fun z hz => h z (by simp [hz])
      linarith

theorem floor_avg_eq (s : ℚ) (v : ℤ) (m : List ℚ) (hne : m ≠ [])
    (h : ∀ x ∈ m, ⌊x / s⌋ = v) : ⌊m.sum / (m.length : ℚ) / s⌋ = v := by
  have hn : (0 : ℚ) < (m.length : ℚ) := by
    have : 0 < m.length := List.length_pos.mpr hne
    exact_mod_cast this
  have hchange : m.sum / (m.length : ℚ) / s
      = (m.map fun x => x / s).sum / (m.length : ℚ) := by
    rw [sum_map_div, div_div, div_div, mul_comm]
  have hbounds : ∀ y ∈ m.map fun x => x / s, (v : ℚ) ≤ y ∧ y < (v : ℚ) + 1 := by
    intro y hy
    obtain ⟨x, hx, rfl⟩ := List.mem_map.mp hy
    have := Int.floor_eq_iff.mp (h x hx)
    exact_mod_cast this
  have hlow : ((m.map fun x => x / s).length : ℚ) * (v : ℚ)
      ≤ (m.map fun x => x / s).sum :=
    length_mul_le_sum _ _ fun y hy => (hbounds y hy).1
  have hhigh : (m.map fun x => x / s).sum
      < ((m.map fun x => x / s).length : ℚ) * ((v : ℚ) + 1) :=
    sum_lt_length_mul _ _ (by simpa using hne) fun y hy => (hbounds y hy).2
  rw [List.length_map] at hlow hhigh
  rw [hchange]
  rw [Int.floor_eq_iff]
  constructor
  · rw [le_div_iff₀ hn]
    linarith
  · rw [div_lt_iff₀ hn]
    linarith

theorem voxelIndex_centroid (s : ℚ) (k : ℤ × ℤ × ℤ) (l : List Point)
    (hne : l ≠ []) (h : ∀ p ∈ l, voxelIndex s p = k) :
    voxelIndex s (centroid l) = k := by
  obtain ⟨k1, k2, k3⟩ := k
  have h1 : ∀ x ∈ l.map Prod.fst, ⌊x / s⌋ = k1 := by
    intro x hx
    obtain ⟨p, hp, rfl⟩ := List.mem_map.mp hx
    exact congrArg (fun t : ℤ × ℤ × ℤ => t.1) (h p hp)
  have h2 : ∀ x ∈ l.map fun p : Point => p.2.1, ⌊x / s⌋ = k2 := by
    intro x hx
    obtain ⟨p, hp, rfl⟩ := List.mem_map.mp hx
    exact congrArg (fun t : ℤ × ℤ × ℤ => t.2.1) (h p hp)
  have h3 : ∀ x ∈ l.map fun p : Point => p.2.2, ⌊x / s⌋ = k3 := by
    intro x hx
    obtain ⟨p, hp, rfl⟩ := List.mem_map.mp hx
    exact congrArg (fun t : ℤ × ℤ × ℤ => t.2.2) (h p hp)
  have e1 := floor_avg_eq s k1 (l.map Prod.fst) (by simpa using hne) h1
  have e2 := floor_avg_eq s k2 (l.map fun p : Point => p.2.1)
    (by simpa using hne) h2
  have e3 := floor_avg_eq s k3 (l.map fun p : Point => p.2.2)
    (by simpa using hne) h3
  rw [List.length_map] at e1 e2 e3
  simp only [voxelIndex, centroid]
  exact Prod.ext e1 (Prod.ext e2 e3)

theorem downsample_points_map_voxelIndex (s : ℚ) (cloud : PointCloud) :
    (downsample s cloud).points.map (voxelIndex s)
      = (cloud.points.map (voxelIndex s)).dedup := by
  simp only [downsample, List.map_map]
  have hfix : ∀ k ∈ (cloud.points.map (voxelIndex s)).dedup,
      (voxelIndex s ∘ fun k =>
        centroid (cloud.points.filter fun p => decide (voxelIndex s p = k))) k
        = k := by
    intro k hk
    obtain ⟨p, hp, hpk⟩ := List.mem_map.mp (List.mem_dedup.mp hk)
    have hpf : p ∈ cloud.points.filter fun q => decide (voxelIndex s q = k) :=
      List.mem_filter.mpr ⟨hp, by simp [hpk]⟩
    exact voxelIndex_centroid s k _ (List.ne_nil_of_mem hpf) fun q hq => by
      simpa using (List.mem_filter.mp hq).2
  rw [List.map_congr_left hfix]
  simp

theorem downsample_points_length (s : ℚ) (cloud : PointCloud) :
    (downsample s cloud).points.length
      = ((cloud.points.map (voxelIndex s)).dedup).length := by
  simp [downsample]

/-- C7: applying the downsample preprocessing stage at a fixed spacing to a
cloud already downsampled at that spacing changes the point count by zero —
voxel-grid reduction is a stable fixed point for the point count, since each
voxel centroid stays inside its own voxel cell. -/
theorem downsample_idempotent_point_count (s : ℚ) (cloud : PointCloud) :
    (downsample s (downsample s cloud)).points.length
      = (downsample s cloud).points.length := by
  rw [downsample_points_length s (downsample s cloud),
    downsample_points_map_voxelIndex,
    List.dedup_eq_self.mpr (List.nodup_dedup _),
    downsample_points_length]

end Mynd
